import Mathlib

/- Shallow embedding of src/backend/main.py: a FastAPI application exposing
three POST endpoints around a pretrained open_clip model. Torch tensors with
one row per input are modelled as lists of real-valued vectors; the external
libraries the handlers call (open_clip model, PIL image parsing, json.loads)
are abstracted as an environment record, since their code is not part of this
repository. The handlers themselves are translated line by line. -/

namespace ClipReact

/-- A feature vector: one row of a torch tensor, with real-valued entries. -/
abbrev Vec := List ℝ

/-- Sum of squares of the entries of a vector. -/
def sumSq (v : Vec) : ℝ := (v.map (fun x => x * x)).sum

/-- L2 norm of a row, as computed by tensor.norm(dim=-1) on that row. -/
noncomputable def l2norm (v : Vec) : ℝ := Real.sqrt (sumSq v)

/-- features / features.norm(dim=-1, keepdim=True), applied to one row:
each entry is divided by the row's own L2 norm, with no zero-norm guard. -/
noncomputable def normalize (v : Vec) : Vec := v.map (fun x => x / l2norm v)

/-- Row dot product: one entry of image_features @ text_features.T. -/
def dot (u v : Vec) : ℝ := (List.zipWith (fun a b => a * b) u v).sum

/-- tensor.softmax(dim=-1) applied to one row. -/
noncomputable def softmax (l : List ℝ) : List ℝ :=
  (l.map Real.exp).map (fun e => e / (l.map Real.exp).sum)

/-- Cosine similarity, written from the glossary of the spec: scaling to unit
length makes dot products cosine similarities of the raw vectors. -/
noncomputable def cosineSim (u v : Vec) : ℝ := dot u v / (l2norm u * l2norm v)

/-- JSON values, as produced by json.loads on the text_input form field. -/
inductive Json where
  | str (s : String)
  | num (n : Int)
  | arr (elems : List Json)
  | obj (fields : List (String × Json))
  | null

/-- class TextInput(BaseModel): text_list: List[str]. -/
structure TextInput where
  text_list : List String
deriving DecidableEq

/-- Extracting a JSON string, used when validating List[str] items. -/
def asString : Json → Option String
  | .str s => some s
  | _ => none

/-- Pydantic validation of TextInput against a JSON value: an object whose
text_list field holds an array of strings (extra fields are ignored, anything
else fails). This is both the framework's request-body validation for
/encode_text/ and the in-handler TextInput(**text_input_dict) call of
/compute_similarity/. -/
def validateTextInput : Json → Option TextInput
  | .obj fields =>
    match fields.lookup "text_list" with
    | some (Json.arr elems) => (elems.mapM asString).map TextInput.mk
    | _ => none
  | _ => none

/-- The process-wide globals of main.py together with the external library
calls the handlers make. B is the type of uploaded file bytes, I of PIL
images, T of tokenized text batches. model, preprocess_val and tokenizer come
from open_clip.create_model_and_transforms / open_clip.get_tokenizer and are
abstract; parse_image is PIL Image.open on the uploaded bytes (none models
the exception) and parse_json is json.loads (none models the exception).
model_encode_text returns one feature row per tokenized input text. -/
structure Env (B I T : Type) where
  parse_image : B → Option I
  preprocess_val : I → I
  model_encode_image : I → Vec
  tokenizer : List String → T
  model_encode_text : T → List Vec
  parse_json : String → Option Json
  device : String

/-- Shape guarantee of the open_clip tokenizer/encoder pair: one feature row
per input text. -/
def Env.encodesPerText {B I T : Type} (env : Env B I T) : Prop :=
  ∀ ts : List String, (env.model_encode_text (env.tokenizer ts)).length = ts.length

/-- The pretrained checkpoint name, fixed at import time. -/
def MODEL : String := "hf-hub:Marqo/marqo-fashionSigLIP"

/-- Exceptions a handler can raise; FastAPI translates any of them to a
plain HTTP 500 response. -/
inductive HandlerError where
  | imageUnreadable
  | jsonUnreadable
  | textInputInvalid
deriving DecidableEq

/-- JSON body of a successful response: either a "features" field holding a
list of float vectors, or "probabilities" and "labels" fields. -/
inductive ResponseBody where
  | features (rows : List Vec)
  | probabilities (probs : List ℝ) (labels : List String)

/-- An HTTP response: a status code and, on success, the JSON body. Error
responses carry no features or probabilities value. -/
structure HttpResponse where
  status : Nat
  body : Option ResponseBody

/-- POST /encode_image/: read the upload, open it as an image, preprocess,
unsqueeze to a batch of one, encode with the model, divide by the L2 norm,
and return the rows of the resulting (1, d) tensor. An Image.open failure
propagates as an exception. -/
noncomputable def encode_image {B I T : Type} (env : Env B I T) (file : B) :
    Except HandlerError ResponseBody :=
  match env.parse_image file with
  | none => .error .imageUnreadable
  | some image =>
    let processed_image := env.preprocess_val image
    let image_features := env.model_encode_image processed_image
    .ok (.features [normalize image_features])

/-- POST /encode_text/: tokenize the validated text_list, encode, divide each
row by its own L2 norm, and return all rows. -/
noncomputable def encode_text {B I T : Type} (env : Env B I T)
    (text_input : TextInput) : Except HandlerError ResponseBody :=
  let text := env.tokenizer text_input.text_list
  let text_features := env.model_encode_text text
  .ok (.features (text_features.map normalize))

/-- POST /compute_similarity/: json.loads the text_input form field, build
TextInput from the dictionary, open and encode the image, tokenize and encode
the texts, normalize image and text rows, and softmax 100 times the image-text
dot products; the response pairs the probabilities row with the input
text_list as labels. Failures of json.loads, TextInput(**d) and Image.open
propagate as exceptions, in that order, as in the source. -/
noncomputable def compute_similarity {B I T : Type} (env : Env B I T)
    (file : B) (text_input : String) : Except HandlerError ResponseBody :=
  match env.parse_json text_input with
  | none => .error .jsonUnreadable
  | some text_input_dict =>
    match validateTextInput text_input_dict with
    | none => .error .textInputInvalid
    | some text_input_obj =>
      match env.parse_image file with
      | none => .error .imageUnreadable
      | some image =>
        let processed_image := env.preprocess_val image
        let image_features := env.model_encode_image processed_image
        let text_features :=
          env.model_encode_text (env.tokenizer text_input_obj.text_list)
        let image_n := normalize image_features
        let text_n := text_features.map normalize
        let text_probs := softmax (text_n.map (fun t => 100 * dot image_n t))
        .ok (.probabilities text_probs text_input_obj.text_list)

/-- The three routes registered on the app, each with @app.post. -/
inductive Request (B : Type) where
  | postEncodeImage (file : B)
  | postEncodeText (body : Json)
  | postComputeSimilarity (file : B) (text_input : String)

/-- HTTP method of each route: all three are registered with @app.post. -/
def Request.method {B : Type} : Request B → String := fun _ => "POST"

/-- FastAPI dispatch: the /encode_text/ body is validated against the
TextInput schema before the handler runs (422 on failure, handler not run);
an uncaught handler exception becomes a plain 500 response with no body
fields; a normal return becomes a 200 response with the JSON body. -/
noncomputable def handle {B I T : Type} (env : Env B I T) :
    Request B → HttpResponse
  | .postEncodeImage file =>
    match encode_image env file with
    | .ok b => ⟨200, some b⟩
    | .error _ => ⟨500, none⟩
  | .postEncodeText body =>
    match validateTextInput body with
    | none => ⟨422, none⟩
    | some ti =>
      match encode_text env ti with
      | .ok b => ⟨200, some b⟩
      | .error _ => ⟨500, none⟩
  | .postComputeSimilarity file text_input =>
    match compute_similarity env file text_input with
    | .ok b => ⟨200, some b⟩
    | .error _ => ⟨500, none⟩

/-- One request/response cycle at the process level: the handlers only read
the globals (model, tokenizer, preprocess_val, device), never assign them, so
the state component passes through unchanged. -/
noncomputable def step {B I T : Type} (env : Env B I T) (req : Request B) :
    Env B I T × HttpResponse :=
  (env, handle env req)

/- Concrete environments, used to instantiate the theorems on closed inputs. -/

/-- An environment over unit bytes/images in which every parse succeeds, the
encoders output the vector [1] for every input, and the parsed JSON is an
object holding the text_list ["a"]. -/
def envUnit : Env Unit Unit (List String) where
  parse_image := fun _ => some ()
  preprocess_val := id
  model_encode_image := fun _ => [1]
  tokenizer := id
  model_encode_text := fun ts => ts.map (fun _ => [1])
  parse_json := fun _ => some (Json.obj [("text_list", Json.arr [Json.str "a"])])
  device := "cpu"

/-- An environment in which PIL and json.loads always fail. -/
def envFail : Env Unit Unit (List String) where
  parse_image := fun _ => none
  preprocess_val := id
  model_encode_image := fun _ => [1]
  tokenizer := id
  model_encode_text := fun ts => ts.map (fun _ => [1])
  parse_json := fun _ => none
  device := "cpu"

/-- An environment whose json.loads yields a JSON array, which TextInput(**d)
cannot accept. -/
def envBadJson : Env Unit Unit (List String) where
  parse_image := fun _ => some ()
  preprocess_val := id
  model_encode_image := fun _ => [1]
  tokenizer := id
  model_encode_text := fun ts => ts.map (fun _ => [1])
  parse_json := fun _ => some (Json.arr [])
  device := "cpu"

/-- An environment whose json.loads yields an object with an empty
text_list. -/
def envEmpty : Env Unit Unit (List String) where
  parse_image := fun _ => some ()
  preprocess_val := id
  model_encode_image := fun _ => [1]
  tokenizer := id
  model_encode_text := fun ts => ts.map (fun _ => [1])
  parse_json := fun _ => some (Json.obj [("text_list", Json.arr [])])
  device := "cpu"

/-- An environment whose image encoder outputs the zero vector [0]. -/
def envZero : Env Unit Unit (List String) where
  parse_image := fun _ => some ()
  preprocess_val := id
  model_encode_image := fun _ => [0]
  tokenizer := id
  model_encode_text := fun ts => ts.map (fun _ => [0])
  parse_json := fun _ => some (Json.obj [("text_list", Json.arr [Json.str "a"])])
  device := "cpu"

/- Arithmetic facts about the vector operations. -/

lemma sumSq_nonneg (v : Vec) : 0 ≤ sumSq v := by
  refine List.sum_nonneg ?_
  intro x hx
  obtain ⟨y, _, rfl⟩ := List.mem_map.mp hx
  exact mul_self_nonneg y

lemma sumSq_cons (a : ℝ) (t : Vec) : sumSq (a :: t) = a * a + sumSq t := by
  simp [sumSq]

lemma l2norm_nonneg (v : Vec) : 0 ≤ l2norm v := Real.sqrt_nonneg _

lemma sumSq_map_div (v : Vec) (c : ℝ) :
    sumSq (v.map (fun x => x / c)) = sumSq v / c ^ 2 := by
  induction v with
  | nil => simp [sumSq]
  | cons a t ih =>
    rw [List.map_cons, sumSq_cons, sumSq_cons, ih, add_div]
    congr 1
    rw [div_mul_div_comm, pow_two]

/-- Dividing a vector of nonzero norm by its norm yields a unit vector. -/
lemma l2norm_normalize (v : Vec) (h : l2norm v ≠ 0) :
    l2norm (normalize v) = 1 := by
  have hs : sumSq v ≠ 0 := by
    intro h0
    exact h (by rw [l2norm, h0, Real.sqrt_zero])
  have hpow : l2norm v ^ 2 = sumSq v := Real.sq_sqrt (sumSq_nonneg v)
  rw [normalize, l2norm, sumSq_map_div, hpow, div_self hs, Real.sqrt_one]

/-- With a zero norm the division is by zero: every entry becomes zero. -/
lemma normalize_of_norm_zero (v : Vec) (h : l2norm v = 0) :
    normalize v = v.map (fun _ => (0 : ℝ)) := by
  simp [normalize, h, div_zero]

lemma l2norm_of_all_zero (v : Vec) (h : ∀ x ∈ v, x = (0 : ℝ)) :
    l2norm v = 0 := by
  have hs : sumSq v = 0 := by
    rw [sumSq]
    refine List.sum_eq_zero ?_
    intro x hx
    obtain ⟨y, hy, rfl⟩ := List.mem_map.mp hx
    rw [h y hy, mul_zero]
  rw [l2norm, hs, Real.sqrt_zero]

/-- Normalizing a zero-norm vector yields another zero-norm vector, not a
unit vector. -/
lemma l2norm_normalize_zero (v : Vec) (h : l2norm v = 0) :
    l2norm (normalize v) = 0 := by
  rw [normalize_of_norm_zero v h]
  refine l2norm_of_all_zero _ ?_
  intro x hx
  obtain ⟨y, _, rfl⟩ := List.mem_map.mp hx
  rfl

lemma dot_cons (x y : ℝ) (xs ys : Vec) :
    dot (x :: xs) (y :: ys) = x * y + dot xs ys := by
  simp [dot]

lemma dot_map_div (u v : Vec) (a b : ℝ) :
    dot (u.map (fun x => x / a)) (v.map (fun y => y / b)) = dot u v / (a * b) := by
  induction u generalizing v with
  | nil => simp [dot]
  | cons x xs ih =>
    cases v with
    | nil => simp [dot]
    | cons y ys =>
      rw [List.map_cons, List.map_cons, dot_cons, dot_cons, ih, add_div]
      congr 1
      rw [div_mul_div_comm]

/-- Dot product after normalization equals the cosine similarity of the raw
vectors. -/
lemma dot_normalize (u v : Vec) :
    dot (normalize u) (normalize v) = cosineSim u v := by
  rw [normalize, normalize, cosineSim, dot_map_div]

lemma sum_map_div (l : List ℝ) (c : ℝ) :
    (l.map (fun x => x / c)).sum = l.sum / c := by
  induction l with
  | nil => simp
  | cons a t ih => simp [ih, add_div]

lemma exp_sum_pos (l : List ℝ) (h : l ≠ []) : 0 < (l.map Real.exp).sum := by
  cases l with
  | nil => exact absurd rfl h
  | cons a t =>
    have h2 : 0 ≤ (t.map Real.exp).sum := by
      refine List.sum_nonneg ?_
      intro x hx
      obtain ⟨z, _, rfl⟩ := List.mem_map.mp hx
      exact (Real.exp_pos z).le
    rw [List.map_cons, List.sum_cons]
    have h1 : 0 < Real.exp a := Real.exp_pos a
    linarith

/-- Softmax of a nonempty row sums to one. -/
lemma softmax_sum (l : List ℝ) (h : l ≠ []) : (softmax l).sum = 1 := by
  rw [softmax, sum_map_div, div_self (exp_sum_pos l h).ne']

/-- Every softmax entry is nonnegative. -/
lemma softmax_nonneg (l : List ℝ) : ∀ p ∈ softmax l, 0 ≤ p := by
  intro p hp
  rw [softmax] at hp
  obtain ⟨e, he, rfl⟩ := List.mem_map.mp hp
  obtain ⟨x, _, rfl⟩ := List.mem_map.mp he
  have hs : 0 ≤ (l.map Real.exp).sum := by
    refine List.sum_nonneg ?_
    intro y hy
    obtain ⟨z, _, rfl⟩ := List.mem_map.mp hy
    exact (Real.exp_pos z).le
  exact div_nonneg (Real.exp_pos x).le hs

lemma softmax_length (l : List ℝ) : (softmax l).length = l.length := by
  simp [softmax]

lemma softmax_nil : softmax [] = [] := by
  simp [softmax]

lemma sumSq_single (a : ℝ) : sumSq [a] = a * a := by
  simp [sumSq]

lemma l2norm_single_one : l2norm [(1 : ℝ)] = 1 := by
  rw [l2norm, sumSq_single, mul_one, Real.sqrt_one]

lemma l2norm_single_zero : l2norm [(0 : ℝ)] = 0 := by
  rw [l2norm, sumSq_single, mul_zero, Real.sqrt_zero]

/-- envUnit satisfies the open_clip shape guarantee: one row per text. -/
lemma envUnit_shape : envUnit.encodesPerText := by
  intro ts
  simp [envUnit]

/-- envEmpty satisfies the open_clip shape guarantee: one row per text. -/
lemma envEmpty_shape : envEmpty.encodesPerText := by
  intro ts
  simp [envEmpty]

/-- C1: on every successful request to /encode_image/ or /encode_text/, each
returned feature vector is exactly the raw encoder output divided by its own
L2 norm, and whenever that raw output has nonzero norm (the only case where
dividing by the norm is meaningful) the returned vector has L2 norm 1. -/
theorem features_are_unit_normalized {B I T : Type} (env : Env B I T)
    (file : B) (image : I) (body : Json) (ti : TextInput)
    (himg : env.parse_image file = some image)
    (hbody : validateTextInput body = some ti) :
    (handle env (.postEncodeImage file) =
        ⟨200, some (.features
          [normalize (env.model_encode_image (env.preprocess_val image))])⟩ ∧
      (l2norm (env.model_encode_image (env.preprocess_val image)) ≠ 0 →
        l2norm (normalize (env.model_encode_image (env.preprocess_val image))) = 1)) ∧
    (handle env (.postEncodeText body) =
        ⟨200, some (.features
          ((env.model_encode_text (env.tokenizer ti.text_list)).map normalize))⟩ ∧
      ∀ row ∈ env.model_encode_text (env.tokenizer ti.text_list),
        l2norm row ≠ 0 → l2norm (normalize row) = 1) := by
  refine ⟨⟨?_, ?_⟩, ?_, ?_⟩
  · simp [handle, encode_image, himg]
  · intro h
    exact l2norm_normalize _ h
  · simp [handle, encode_text, hbody]
  · intro row _ h
    exact l2norm_normalize _ h

/-- Witness for C1 at a concrete environment and request. -/
theorem features_are_unit_normalized_w :
    envUnit.parse_image () = some () ∧
    validateTextInput (Json.obj [("text_list", Json.arr [Json.str "a"])]) =
      some ⟨["a"]⟩ ∧
    ((handle envUnit (.postEncodeImage ()) =
        ⟨200, some (.features [normalize [1]])⟩ ∧
      (l2norm [(1 : ℝ)] ≠ 0 → l2norm (normalize [(1 : ℝ)]) = 1)) ∧
     (handle envUnit
        (.postEncodeText (Json.obj [("text_list", Json.arr [Json.str "a"])])) =
        ⟨200, some (.features ([[(1 : ℝ)]].map normalize))⟩ ∧
      ∀ row ∈ [[(1 : ℝ)]], l2norm row ≠ 0 → l2norm (normalize row) = 1)) :=
  ⟨rfl, rfl,
    features_are_unit_normalized envUnit () ()
      (Json.obj [("text_list", Json.arr [Json.str "a"])]) ⟨["a"]⟩ rfl rfl⟩

/-- C3: an unparseable uploaded image makes /encode_image/ and
/compute_similarity/ answer with an error response carrying no features or
probabilities value, and an unparseable text_input JSON form field does the
same for /compute_similarity/. -/
theorem malformed_input_error {B I T : Type} (env : Env B I T) (f : B)
    (s : String)
    (himg : env.parse_image f = none)
    (hjson : env.parse_json s = none) :
    handle env (.postEncodeImage f) = ⟨500, none⟩ ∧
    (∀ s2 : String, handle env (.postComputeSimilarity f s2) = ⟨500, none⟩) ∧
    (∀ f2 : B, handle env (.postComputeSimilarity f2 s) = ⟨500, none⟩) := by
  refine ⟨?_, ?_, ?_⟩
  · simp [handle, encode_image, himg]
  · intro s2
    cases h2 : env.parse_json s2 with
    | none => simp [handle, compute_similarity, h2]
    | some j =>
      cases h3 : validateTextInput j with
      | none => simp [handle, compute_similarity, h2, h3]
      | some ti => simp [handle, compute_similarity, h2, h3, himg]
  · intro f2
    simp [handle, compute_similarity, hjson]

/-- Witness for C3 at a concrete environment whose parsers fail. -/
theorem malformed_input_error_w :
    envFail.parse_image () = none ∧
    envFail.parse_json "x" = none ∧
    (handle envFail (.postEncodeImage ()) = ⟨500, none⟩ ∧
     (∀ s2 : String, handle envFail (.postComputeSimilarity () s2) = ⟨500, none⟩) ∧
     (∀ f2 : Unit, handle envFail (.postComputeSimilarity f2 "x") = ⟨500, none⟩)) :=
  ⟨rfl, rfl, malformed_input_error envFail () "x" rfl rfl⟩

/-- C10: normalization is division by the L2 norm with no zero-norm branch:
the request still succeeds when the raw encoder output has norm zero, and the
returned vector then has L2 norm 0 rather than 1. -/
theorem normalization_unguarded {B I T : Type} (env : Env B I T)
    (f : B) (image : I)
    (hi : env.parse_image f = some image)
    (hz : l2norm (env.model_encode_image (env.preprocess_val image)) = 0) :
    (∀ v : Vec, normalize v = v.map (fun x => x / l2norm v)) ∧
    handle env (.postEncodeImage f) =
      ⟨200, some (.features
        [normalize (env.model_encode_image (env.preprocess_val image))])⟩ ∧
    l2norm (normalize (env.model_encode_image (env.preprocess_val image))) = 0 ∧
    l2norm (normalize (env.model_encode_image (env.preprocess_val image))) ≠ 1 := by
  have h0 := l2norm_normalize_zero _ hz
  refine ⟨fun v => rfl, ?_, h0, ?_⟩
  · simp [handle, encode_image, hi]
  · rw [h0]
    norm_num

/-- Witness for C10 at a concrete environment whose encoder outputs the zero
vector. -/
theorem normalization_unguarded_w :
    envZero.parse_image () = some () ∧
    l2norm [(0 : ℝ)] = 0 ∧
    ((∀ v : Vec, normalize v = v.map (fun x => x / l2norm v)) ∧
     handle envZero (.postEncodeImage ()) =
       ⟨200, some (.features [normalize [0]])⟩ ∧
     l2norm (normalize [(0 : ℝ)]) = 0 ∧
     l2norm (normalize [(0 : ℝ)]) ≠ 1) :=
  ⟨rfl, l2norm_single_zero,
    normalization_unguarded envZero () () rfl l2norm_single_zero⟩

/-- C2: on every successful /compute_similarity/ request with a non-empty
text_list, the probabilities row is the softmax of 100 times the image-text
dot products, every entry is nonnegative, and the entries sum to 1. -/
theorem similarity_probabilities {B I T : Type} (env : Env B I T)
    (file : B) (s : String) (j : Json) (ti : TextInput) (image : I)
    (hj : env.parse_json s = some j)
    (hv : validateTextInput j = some ti)
    (hi : env.parse_image file = some image)
    (hshape : env.encodesPerText)
    (hne : ti.text_list ≠ []) :
    ∃ probs : List ℝ,
      handle env (.postComputeSimilarity file s) =
        ⟨200, some (.probabilities probs ti.text_list)⟩ ∧
      probs = softmax
        (((env.model_encode_text (env.tokenizer ti.text_list)).map normalize).map
          (fun t =>
            100 * dot (normalize (env.model_encode_image (env.preprocess_val image))) t)) ∧
      (∀ p ∈ probs, 0 ≤ p) ∧
      probs.sum = 1 := by
  refine ⟨_, ?_, rfl, softmax_nonneg _, ?_⟩
  · simp [handle, compute_similarity, hj, hv, hi]
  · refine softmax_sum _ ?_
    intro h0
    have hlen := congrArg List.length h0
    simp [hshape ti.text_list] at hlen
    exact hne hlen

/-- Witness for C2 at a concrete environment and a one-element text_list. -/
theorem similarity_probabilities_w :
    envUnit.parse_json "x" =
      some (Json.obj [("text_list", Json.arr [Json.str "a"])]) ∧
    validateTextInput (Json.obj [("text_list", Json.arr [Json.str "a"])]) =
      some ⟨["a"]⟩ ∧
    envUnit.parse_image () = some () ∧
    envUnit.encodesPerText ∧
    (TextInput.mk ["a"]).text_list ≠ [] ∧
    (∃ probs : List ℝ,
      handle envUnit (.postComputeSimilarity () "x") =
        ⟨200, some (.probabilities probs ["a"])⟩ ∧
      probs = softmax
        (([[(1 : ℝ)]].map normalize).map (fun t => 100 * dot (normalize [1]) t)) ∧
      (∀ p ∈ probs, 0 ≤ p) ∧
      probs.sum = 1) :=
  ⟨rfl, rfl, rfl, envUnit_shape, by simp,
    similarity_probabilities envUnit () "x"
      (Json.obj [("text_list", Json.arr [Json.str "a"])]) ⟨["a"]⟩ ()
      rfl rfl rfl envUnit_shape (by simp)⟩

/-- C4: /compute_similarity/ normalizes both the image row and every text row
before taking dot products, so the quantities fed to the softmax are exactly
100 times the cosine similarities of the raw encoder outputs. -/
theorem similarity_uses_cosines {B I T : Type} (env : Env B I T)
    (file : B) (s : String) (j : Json) (ti : TextInput) (image : I)
    (hj : env.parse_json s = some j)
    (hv : validateTextInput j = some ti)
    (hi : env.parse_image file = some image) :
    handle env (.postComputeSimilarity file s) =
      ⟨200, some (.probabilities
        (softmax ((env.model_encode_text (env.tokenizer ti.text_list)).map
          (fun t =>
            100 * cosineSim (env.model_encode_image (env.preprocess_val image)) t)))
        ti.text_list)⟩ := by
  have hfun :
      (fun t =>
          100 * dot (normalize (env.model_encode_image (env.preprocess_val image)))
            (normalize t)) =
        (fun t =>
          100 * cosineSim (env.model_encode_image (env.preprocess_val image)) t) := by
    funext t
    rw [dot_normalize]
  simp only [handle, compute_similarity, hj, hv, hi, List.map_map,
    Function.comp_def, hfun]

/-- Witness for C4 at a concrete environment. -/
theorem similarity_uses_cosines_w :
    envUnit.parse_json "x" =
      some (Json.obj [("text_list", Json.arr [Json.str "a"])]) ∧
    validateTextInput (Json.obj [("text_list", Json.arr [Json.str "a"])]) =
      some ⟨["a"]⟩ ∧
    envUnit.parse_image () = some () ∧
    handle envUnit (.postComputeSimilarity () "x") =
      ⟨200, some (.probabilities
        (softmax ([[(1 : ℝ)]].map (fun t => 100 * cosineSim [1] t))) ["a"])⟩ :=
  ⟨rfl, rfl, rfl,
    similarity_uses_cosines envUnit () "x"
      (Json.obj [("text_list", Json.arr [Json.str "a"])]) ⟨["a"]⟩ ()
      rfl rfl rfl⟩

/-- C5: on every successful /compute_similarity/ request the labels field is
the input text_list itself, and the probabilities row has one entry per
label. -/
theorem similarity_labels {B I T : Type} (env : Env B I T)
    (file : B) (s : String) (j : Json) (ti : TextInput) (image : I)
    (hj : env.parse_json s = some j)
    (hv : validateTextInput j = some ti)
    (hi : env.parse_image file = some image)
    (hshape : env.encodesPerText) :
    ∃ probs : List ℝ,
      handle env (.postComputeSimilarity file s) =
        ⟨200, some (.probabilities probs ti.text_list)⟩ ∧
      probs.length = ti.text_list.length := by
  refine ⟨softmax
      (((env.model_encode_text (env.tokenizer ti.text_list)).map normalize).map
        (fun t =>
          100 * dot (normalize (env.model_encode_image (env.preprocess_val image))) t)),
    ?_, ?_⟩
  · simp [handle, compute_similarity, hj, hv, hi]
  · rw [softmax_length]
    simp [hshape ti.text_list]

/-- Witness for C5 at a concrete environment. -/
theorem similarity_labels_w :
    envUnit.parse_json "x" =
      some (Json.obj [("text_list", Json.arr [Json.str "a"])]) ∧
    validateTextInput (Json.obj [("text_list", Json.arr [Json.str "a"])]) =
      some ⟨["a"]⟩ ∧
    envUnit.parse_image () = some () ∧
    envUnit.encodesPerText ∧
    (∃ probs : List ℝ,
      handle envUnit (.postComputeSimilarity () "x") =
        ⟨200, some (.probabilities probs ["a"])⟩ ∧
      probs.length = (["a"] : List String).length) :=
  ⟨rfl, rfl, rfl, envUnit_shape,
    similarity_labels envUnit () "x"
      (Json.obj [("text_list", Json.arr [Json.str "a"])]) ⟨["a"]⟩ ()
      rfl rfl rfl envUnit_shape⟩

/-- C9: a /compute_similarity/ request with an empty text_list succeeds with
an empty probabilities row, whose sum is 0, not 1. -/
theorem empty_text_list_probs {B I T : Type} (env : Env B I T)
    (file : B) (s : String) (j : Json) (image : I)
    (hj : env.parse_json s = some j)
    (hv : validateTextInput j = some ⟨[]⟩)
    (hi : env.parse_image file = some image)
    (hshape : env.encodesPerText) :
    handle env (.postComputeSimilarity file s) =
      ⟨200, some (.probabilities (softmax []) [])⟩ ∧
    softmax [] = [] ∧
    (softmax []).sum = 0 ∧
    (softmax []).sum ≠ 1 := by
  have hrows : env.model_encode_text (env.tokenizer ([] : List String)) = [] := by
    have hlen := hshape []
    simpa using List.length_eq_zero.mp (by simpa using hlen)
  refine ⟨?_, softmax_nil, by simp [softmax_nil], by simp [softmax_nil]⟩
  simp [handle, compute_similarity, hj, hv, hi, hrows]

/-- Witness for C9 at a concrete environment whose parsed text_list is
empty. -/
theorem empty_text_list_probs_w :
    envEmpty.parse_json "x" = some (Json.obj [("text_list", Json.arr [])]) ∧
    validateTextInput (Json.obj [("text_list", Json.arr [])]) = some ⟨[]⟩ ∧
    envEmpty.parse_image () = some () ∧
    envEmpty.encodesPerText ∧
    (handle envEmpty (.postComputeSimilarity () "x") =
      ⟨200, some (.probabilities (softmax []) [])⟩ ∧
     softmax [] = [] ∧
     (softmax []).sum = 0 ∧
     (softmax []).sum ≠ 1) :=
  ⟨rfl, rfl, rfl, envEmpty_shape,
    empty_text_list_probs envEmpty () "x" (Json.obj [("text_list", Json.arr [])])
      () rfl rfl rfl envEmpty_shape⟩

/-- C6: every request is to one of the three POST routes, and every 200
response carries a JSON body that is either a features list of float vectors
or a probabilities/labels pair. -/
theorem three_post_endpoints {B I T : Type} (env : Env B I T)
    (req : Request B) :
    req.method = "POST" ∧
    ((∃ f, req = .postEncodeImage f) ∨ (∃ b, req = .postEncodeText b) ∨
      (∃ f s, req = .postComputeSimilarity f s)) ∧
    ((handle env req).status = 200 →
      ∃ rb, (handle env req).body = some rb ∧
        ((∃ rows, rb = .features rows) ∨
          (∃ ps ls, rb = .probabilities ps ls))) := by
  refine ⟨rfl, ?_, ?_⟩
  · cases req with
    | postEncodeImage f => exact Or.inl ⟨f, rfl⟩
    | postEncodeText b => exact Or.inr (Or.inl ⟨b, rfl⟩)
    | postComputeSimilarity f s => exact Or.inr (Or.inr ⟨f, s, rfl⟩)
  · intro h200
    cases req with
    | postEncodeImage f =>
      cases hr : encode_image env f with
      | ok rb =>
        refine ⟨rb, by simp [handle, hr], ?_⟩
        cases rb with
        | features rows => exact Or.inl ⟨rows, rfl⟩
        | probabilities ps ls => exact Or.inr ⟨ps, ls, rfl⟩
      | error e =>
        rw [show handle env (.postEncodeImage f) = ⟨500, none⟩ by
          simp [handle, hr]] at h200
        exact absurd h200 (by norm_num)
    | postEncodeText b =>
      cases hv : validateTextInput b with
      | none =>
        rw [show handle env (.postEncodeText b) = ⟨422, none⟩ by
          simp [handle, hv]] at h200
        exact absurd h200 (by norm_num)
      | some ti =>
        cases hr : encode_text env ti with
        | ok rb =>
          refine ⟨rb, by simp [handle, hv, hr], ?_⟩
          cases rb with
          | features rows => exact Or.inl ⟨rows, rfl⟩
          | probabilities ps ls => exact Or.inr ⟨ps, ls, rfl⟩
        | error e =>
          rw [show handle env (.postEncodeText b) = ⟨500, none⟩ by
            simp [handle, hv, hr]] at h200
          exact absurd h200 (by norm_num)
    | postComputeSimilarity f s =>
      cases hr : compute_similarity env f s with
      | ok rb =>
        refine ⟨rb, by simp [handle, hr], ?_⟩
        cases rb with
        | features rows => exact Or.inl ⟨rows, rfl⟩
        | probabilities ps ls => exact Or.inr ⟨ps, ls, rfl⟩
      | error e =>
        rw [show handle env (.postComputeSimilarity f s) = ⟨500, none⟩ by
          simp [handle, hr]] at h200
        exact absurd h200 (by norm_num)

/-- Witness for C6 at a concrete environment and request. -/
theorem three_post_endpoints_w :
    (handle envUnit (.postEncodeImage ())).status = 200 ∧
    (∃ rb, (handle envUnit (.postEncodeImage ())).body = some rb ∧
      ((∃ rows, rb = .features rows) ∨
        (∃ ps ls, rb = .probabilities ps ls))) :=
  ⟨rfl, (three_post_endpoints envUnit (.postEncodeImage ())).2.2 rfl⟩

/-- C7: the request handlers only read the process-wide globals (model,
tokenizer, preprocess_val, device): after any single request, and after any
sequence of requests, the global state equals the initial one. -/
theorem globals_unchanged {B I T : Type} (env : Env B I T)
    (req : Request B) (reqs : List (Request B)) :
    (step env req).1 = env ∧
    reqs.foldl (fun e r => (step e r).1) env = env := by
  refine ⟨rfl, ?_⟩
  induction reqs generalizing env with
  | nil => rfl
  | cons r rs ih => exact ih env

/-- C8: a request body to /encode_text/ failing TextInput schema validation
is rejected by the framework with HTTP 422 before the handler runs, while a
/compute_similarity/ text_input form field that is invalid JSON or fails
TextInput(**d) raises inside the handler and becomes a plain HTTP 500. -/
theorem malformed_text_two_paths {B I T : Type} (env : Env B I T)
    (body : Json) (f : B) (s : String) (j : Json)
    (hbody : validateTextInput body = none)
    (hj : env.parse_json s = some j)
    (hv : validateTextInput j = none) :
    handle env (.postEncodeText body) = ⟨422, none⟩ ∧
    handle env (.postComputeSimilarity f s) = ⟨500, none⟩ ∧
    (∀ s2 : String, env.parse_json s2 = none →
      handle env (.postComputeSimilarity f s2) = ⟨500, none⟩) := by
  refine ⟨?_, ?_, ?_⟩
  · simp [handle, hbody]
  · simp [handle, compute_similarity, hj, hv]
  · intro s2 h2
    simp [handle, compute_similarity, h2]

/-- Witness for C8 at a concrete environment whose form field parses to a
JSON array, which the TextInput schema rejects. -/
theorem malformed_text_two_paths_w :
    validateTextInput (Json.arr []) = none ∧
    envBadJson.parse_json "x" = some (Json.arr []) ∧
    (handle envBadJson (.postEncodeText (Json.arr [])) = ⟨422, none⟩ ∧
     handle envBadJson (.postComputeSimilarity () "x") = ⟨500, none⟩ ∧
     (∀ s2 : String, envBadJson.parse_json s2 = none →
       handle envBadJson (.postComputeSimilarity () s2) = ⟨500, none⟩)) :=
  ⟨rfl, rfl,
    malformed_text_two_paths envBadJson (Json.arr []) () "x" (Json.arr [])
      rfl rfl rfl⟩

end ClipReact
